import Mathlib

/-!
Shallow embedding of `convert_stl_to_step.py`, a batch converter that walks
an input directory of STL mesh files, converts each one to a STEP file via
the external FreeCAD library, deletes the sources that converted
successfully, and prints a summary.  The external library and the
filesystem are modelled by an explicit environment: per input file, where
(if anywhere) the library raises, the exception messages, and whether
`os.remove` succeeds.  Printing is modelled as a list of printed lines, and
the order of filesystem events as a trace.
-/

namespace Mesh2Solid

/-- What kind of directory entry a name denotes on disk.  `os.listdir`
returns names of entries of every kind. -/
inductive EntryKind where
  | file
  | directory
deriving DecidableEq

/-- A directory entry: its name and its kind. -/
structure Entry where
  name : String
  kind : EntryKind
deriving DecidableEq

/-- Lexicographic comparison of character lists by code point, the order
Python uses to compare strings. -/
def charLe : List Char → List Char → Bool
  | [], _ => true
  | _ :: _, [] => false
  | a :: as, b :: bs =>
    if a.toNat < b.toNat then true
    else if b.toNat < a.toNat then false
    else charLe as bs

/-- Python string comparison `a <= b`: code-point lexicographic order. -/
def strLe (a b : String) : Bool := charLe a.data b.data

instance : DecidableRel (fun a b : String => strLe a b = true) :=
  fun _ _ => inferInstanceAs (Decidable (_ = true))

/-- Python `str.lower()` restricted to the ASCII case mapping, which is all
the `.stl` suffix test can depend on. -/
def pyLower (s : String) : String := String.mk (s.data.map Char.toLower)

/-- The filter of `get_stl_files`: `f.lower().endswith(".stl")`. -/
def hasStlExt (f : String) : Bool := ".stl".data.isSuffixOf (pyLower f).data

/-- Embedding of `get_stl_files` (lines 30-39): keep the directory-entry
names whose lowercase form ends in `.stl`, in sorted order.  Python's
`sorted` and insertion sort agree: both return the unique `strLe`-sorted
permutation of the list (string order is antisymmetric). -/
def get_stl_files (entries : List Entry) : List String :=
  List.insertionSort (fun a b => strLe a b = true)
    ((entries.map Entry.name).filter hasStlExt)

/-- Index of the last `.` in a character list, if any. -/
def rfindDot : List Char → Option Nat
  | [] => none
  | c :: cs =>
    match rfindDot cs with
    | some i => some (i + 1)
    | none => if c = '.' then some 0 else none

/-- Embedding of `os.path.splitext` for a bare file name (no path
separator): split at the last dot, except that a name whose characters
before that dot are all dots has no extension (so `".stl"` splits as
`(".stl", "")`). -/
def splitext (s : String) : String × String :=
  match rfindDot s.data with
  | none => (s, "")
  | some i =>
    if (s.data.take i).all (fun c => c == '.') then (s, "")
    else (String.mk (s.data.take i), String.mk (s.data.drop i))

/-- The output file name `convert_stl_to_step` writes (lines 57-58):
`os.path.splitext(stl_filename)[0] + ".step"`. -/
def stepName (stl_filename : String) : String := (splitext stl_filename).1 ++ ".step"

/-- Where, if anywhere, the external library raises while converting one
file.  `raiseAtImport` is a failure of the `import` statements before the
`Converting:` line is printed; `raiseBeforeExport` is any exception between
that print and `exportStep`; `raiseAfterExport` is an exception from
`FreeCAD.closeDocument` after `exportStep` has already written the output
file. -/
inductive LibOutcome where
  | success
  | raiseAtImport
  | raiseBeforeExport
  | raiseAfterExport
deriving DecidableEq

/-- The external world for one run: the library outcome and exception
message per input file, and whether `os.remove` succeeds per file (with the
message of the exception it raises when it does not). -/
structure Env where
  outcome : String → LibOutcome
  errMsg : String → String
  removeErr : String → String
  removeOk : String → Bool

/-- Writing a file into a directory listing: a name appears at most once
(`exportStep` overwrites an existing file of the same name). -/
def fsInsert (name : String) (dir : List String) : List String :=
  if name ∈ dir then dir else dir ++ [name]

/-- Whether the library run leaves an output file behind: `exportStep` ran
iff the outcome is success or the exception came only after the export. -/
def createsOutput : LibOutcome → Bool
  | LibOutcome.success => true
  | LibOutcome.raiseAfterExport => true
  | _ => false

/-- Result of one `convert_stl_to_step` call: the returned boolean, the
output directory afterwards, and the lines this call printed. -/
structure ConvResult where
  ret : Bool
  outDir : List String
  lines : List String
deriving DecidableEq

/-- Embedding of `convert_stl_to_step` (lines 41-99).  Every library
exception is caught by the `except` clause and turned into a `False`
return; the output file appears exactly when `exportStep` ran. -/
def convert_stl_to_step (env : Env) (outDir : List String) (stl_filename : String) :
    ConvResult :=
  match env.outcome stl_filename with
  | LibOutcome.success =>
    { ret := true
      outDir := fsInsert (stepName stl_filename) outDir
      lines := ["Converting: " ++ stl_filename,
                "  -> Created: " ++ ((splitext stl_filename).1 ++ ".step")] }
  | LibOutcome.raiseAtImport =>
    { ret := false
      outDir := outDir
      lines := ["  ERROR converting " ++ stl_filename ++ ": " ++ env.errMsg stl_filename] }
  | LibOutcome.raiseBeforeExport =>
    { ret := false
      outDir := outDir
      lines := ["Converting: " ++ stl_filename,
                "  ERROR converting " ++ stl_filename ++ ": " ++ env.errMsg stl_filename] }
  | LibOutcome.raiseAfterExport =>
    { ret := false
      outDir := fsInsert (stepName stl_filename) outDir
      lines := ["Converting: " ++ stl_filename,
                "  ERROR converting " ++ stl_filename ++ ": " ++ env.errMsg stl_filename] }

/-- An observable filesystem access, in program order: a conversion attempt
on an input file, or an `os.remove` attempt on one. -/
inductive Event where
  | convAttempt (name : String)
  | deleteAttempt (name : String)
deriving DecidableEq

/-- State of `main`'s conversion loop (lines 125-134): the two counters,
the `files_to_remove` list, the output directory, the printed lines and the
event trace so far. -/
structure LoopState where
  successful : Nat
  failed : Nat
  files_to_remove : List String
  outDir : List String
  lines : List String
  trace : List Event
deriving DecidableEq

/-- One iteration of the conversion loop (lines 129-134). -/
def processOne (env : Env) (st : LoopState) (stl_file : String) : LoopState :=
  let r := convert_stl_to_step env st.outDir stl_file
  if r.ret then
    { successful := st.successful + 1
      failed := st.failed
      files_to_remove := st.files_to_remove ++ [stl_file]
      outDir := r.outDir
      lines := st.lines ++ r.lines
      trace := st.trace ++ [Event.convAttempt stl_file] }
  else
    { successful := st.successful
      failed := st.failed + 1
      files_to_remove := st.files_to_remove
      outDir := r.outDir
      lines := st.lines ++ r.lines
      trace := st.trace ++ [Event.convAttempt stl_file] }

/-- The whole conversion loop over the discovered files. -/
def processFiles (env : Env) (files : List String) (st : LoopState) : LoopState :=
  files.foldl (processOne env) st

/-- State of the cleanup loop (lines 138-144): the input directory, the
names `os.remove` was attempted on, the printed lines and the trace. -/
structure RemoveState where
  inDir : List Entry
  attempts : List String
  lines : List String
  trace : List Event
deriving DecidableEq

/-- One iteration of the cleanup loop (lines 138-144): try `os.remove`; a
failure prints a warning and nothing else. -/
def removeOne (env : Env) (st : RemoveState) (stl_file : String) : RemoveState :=
  if env.removeOk stl_file then
    { inDir := st.inDir.filter (fun e => !(decide (e.name = stl_file)))
      attempts := st.attempts ++ [stl_file]
      lines := st.lines ++ ["Removed: " ++ stl_file]
      trace := st.trace ++ [Event.deleteAttempt stl_file] }
  else
    { inDir := st.inDir
      attempts := st.attempts ++ [stl_file]
      lines := st.lines ++ ["Warning: Could not remove " ++ stl_file ++ ": "
                  ++ env.removeErr stl_file]
      trace := st.trace ++ [Event.deleteAttempt stl_file] }

/-- The whole cleanup loop over `files_to_remove`. -/
def removeFiles (env : Env) (st : RemoveState) (files : List String) : RemoveState :=
  files.foldl (removeOne env) st

/-- The `"=" * 60` separator line. -/
def banner : String := String.mk (List.replicate 60 '=')

/-- Everything observable about one run of `main`: the discovered list, the
two counters, the final input and output directories, the names `os.remove`
was attempted on, the printed lines, and the event trace. -/
structure RunResult where
  stl_files : List String
  successful : Nat
  failed : Nat
  inDirAfter : List Entry
  outDirAfter : List String
  deletionAttempts : List String
  lines : List String
  trace : List Event
deriving DecidableEq

/-- The non-empty branch of `main` (lines 119-153): list the files, run the
conversion loop, run the cleanup loop, print the summary. -/
def mainLoop (env : Env) (scriptDir : String) (inDir : List Entry)
    (outDir : List String) (stl_files : List String) : RunResult :=
  let st := processFiles env stl_files
    { successful := 0, failed := 0, files_to_remove := [], outDir := outDir,
      lines := [], trace := [] }
  let rm := removeFiles env
    { inDir := inDir, attempts := [], lines := [], trace := st.trace }
    st.files_to_remove
  { stl_files := stl_files
    successful := st.successful
    failed := st.failed
    inDirAfter := rm.inDir
    outDirAfter := st.outDir
    deletionAttempts := rm.attempts
    lines := [banner, "STL to STEP Converter", banner,
              "\nFound " ++ toString stl_files.length ++ " STL file(s) to process:"]
      ++ stl_files.map (fun f => "  - " ++ f) ++ [""]
      ++ st.lines ++ [""] ++ rm.lines
      ++ ["", banner, "Conversion complete!",
          "  Successful: " ++ toString st.successful,
          "  Failed: " ++ toString st.failed,
          "  Output directory: " ++ (scriptDir ++ "/step_files"), banner]
    trace := rm.trace }

/-- Embedding of `main` (lines 101-153), parametrised by the environment,
the script directory (only used in printed paths) and the initial contents
of the input and output directories.  With no discovered files `main`
returns early after printing a notice (lines 113-117). -/
def mainRun (env : Env) (scriptDir : String) (inDir : List Entry)
    (outDir : List String) : RunResult :=
  if (get_stl_files inDir).isEmpty then
    { stl_files := get_stl_files inDir
      successful := 0
      failed := 0
      inDirAfter := inDir
      outDirAfter := outDir
      deletionAttempts := []
      lines := [banner, "STL to STEP Converter", banner,
                "\nNo STL files found in: " ++ (scriptDir ++ "/stl_files"),
                "Please place your .stl files in the \x27stl_files\x27 directory.",
                banner]
      trace := [] }
  else
    mainLoop env scriptDir inDir outDir (get_stl_files inDir)

/-- An environment where every conversion succeeds and every removal
succeeds. -/
def envAllOk : Env :=
  { outcome := fun _ => LibOutcome.success
    errMsg := fun _ => ""
    removeErr := fun _ => ""
    removeOk := fun _ => true }

/-- An environment where every conversion succeeds but every `os.remove`
raises. -/
def envRemoveFails : Env :=
  { outcome := fun _ => LibOutcome.success
    errMsg := fun _ => ""
    removeErr := fun _ => "Permission denied"
    removeOk := fun _ => false }

/-- An environment where `FreeCAD.closeDocument` raises after `exportStep`
has already written the output file. -/
def envCloseFails : Env :=
  { outcome := fun _ => LibOutcome.raiseAfterExport
    errMsg := fun _ => "close failed"
    removeErr := fun _ => ""
    removeOk := fun _ => true }

/-- An environment where the library raises while importing the mesh, well
before any export. -/
def envMeshFails : Env :=
  { outcome := fun _ => LibOutcome.raiseAtImport
    errMsg := fun _ => "Invalid mesh"
    removeErr := fun _ => ""
    removeOk := fun _ => true }

/-! ### Helper lemmas -/

theorem charLe_total (as bs : List Char) : charLe as bs = true ∨ charLe bs as = true := by
  induction as generalizing bs with
  | nil => left; rfl
  | cons a as ih =>
    cases bs with
    | nil => right; rfl
    | cons b bs =>
      rcases Nat.lt_trichotomy a.toNat b.toNat with h | h | h
      · left; simp [charLe, h]
      · have h1 : ¬ a.toNat < b.toNat := by omega
        have h2 : ¬ b.toNat < a.toNat := by omega
        rcases ih bs with hc | hc
        · left; simp [charLe, h1, h2, hc]
        · right; simp [charLe, h1, h2, hc]
      · right; simp [charLe, h]

theorem charLe_trans (as bs cs : List Char) (h1 : charLe as bs = true)
    (h2 : charLe bs cs = true) : charLe as cs = true := by
  induction as generalizing bs cs with
  | nil => rfl
  | cons a as ih =>
    cases bs with
    | nil => simp [charLe] at h1
    | cons b bs =>
      cases cs with
      | nil => simp [charLe] at h2
      | cons c cs =>
        simp only [charLe] at h1 h2 ⊢
        split_ifs at h1 h2 ⊢ <;> try rfl
        all_goals try omega
        all_goals exact ih bs cs h1 h2

theorem mem_fsInsert_self (x : String) (dir : List String) : x ∈ fsInsert x dir := by
  unfold fsInsert
  split
  · assumption
  · simp

theorem mem_fsInsert_of_mem {y : String} {dir : List String} (x : String)
    (h : y ∈ dir) : y ∈ fsInsert x dir := by
  unfold fsInsert
  split
  · exact h
  · simp [h]

theorem fsInsert_nodup {dir : List String} (x : String) (h : dir.Nodup) :
    (fsInsert x dir).Nodup := by
  unfold fsInsert
  split
  · exact h
  · next hx => simpa [List.nodup_append] using ⟨h, fun hy => hx hy⟩

theorem convert_ret (env : Env) (o : List String) (f : String) :
    (convert_stl_to_step env o f).ret = decide (env.outcome f = LibOutcome.success) := by
  cases h : env.outcome f <;> simp [convert_stl_to_step, h]

theorem convert_outDir (env : Env) (o : List String) (f : String) :
    (convert_stl_to_step env o f).outDir
      = if createsOutput (env.outcome f) then fsInsert (stepName f) o else o := by
  cases h : env.outcome f <;> simp [convert_stl_to_step, createsOutput, h]

theorem convert_err_mem (env : Env) (o : List String) (f : String)
    (h : env.outcome f ≠ LibOutcome.success) :
    ("  ERROR converting " ++ f ++ ": " ++ env.errMsg f)
      ∈ (convert_stl_to_step env o f).lines := by
  cases hc : env.outcome f <;> simp [convert_stl_to_step, hc] at h ⊢

theorem convert_congr (oc : String → LibOutcome) (em rer rer' : String → String)
    (rok rok' : String → Bool) (o : List String) (f : String) :
    convert_stl_to_step ⟨oc, em, rer, rok⟩ o f
      = convert_stl_to_step ⟨oc, em, rer', rok'⟩ o f := by
  cases h : oc f <;> simp [convert_stl_to_step, h]

theorem processFiles_nil (env : Env) (st : LoopState) : processFiles env [] st = st := rfl

theorem processFiles_cons (env : Env) (f : String) (fs : List String) (st : LoopState) :
    processFiles env (f :: fs) st = processFiles env fs (processOne env st f) := rfl

theorem processFiles_successful (env : Env) (files : List String) :
    ∀ st : LoopState, (processFiles env files st).successful
      = st.successful
        + (files.filter (fun g => decide (env.outcome g = LibOutcome.success))).length := by
  induction files with
  | nil => intro st; simp [processFiles_nil]
  | cons f fs ih =>
    intro st
    rw [processFiles_cons, ih]
    by_cases h : env.outcome f = LibOutcome.success <;>
      simp [processOne, convert_ret, h] <;> omega

theorem processFiles_failed (env : Env) (files : List String) :
    ∀ st : LoopState, (processFiles env files st).failed
      = st.failed
        + (files.filter (fun g => !(decide (env.outcome g = LibOutcome.success)))).length := by
  induction files with
  | nil => intro st; simp [processFiles_nil]
  | cons f fs ih =>
    intro st
    rw [processFiles_cons, ih]
    by_cases h : env.outcome f = LibOutcome.success <;>
      simp [processOne, convert_ret, h] <;> omega

theorem processFiles_toRemove (env : Env) (files : List String) :
    ∀ st : LoopState, (processFiles env files st).files_to_remove
      = st.files_to_remove
        ++ files.filter (fun g => decide (env.outcome g = LibOutcome.success)) := by
  induction files with
  | nil => intro st; simp [processFiles_nil]
  | cons f fs ih =>
    intro st
    rw [processFiles_cons, ih]
    by_cases h : env.outcome f = LibOutcome.success <;>
      simp [processOne, convert_ret, h]

theorem processFiles_trace (env : Env) (files : List String) :
    ∀ st : LoopState, (processFiles env files st).trace
      = st.trace ++ files.map Event.convAttempt := by
  induction files with
  | nil => intro st; simp [processFiles_nil]
  | cons f fs ih =>
    intro st
    rw [processFiles_cons, ih]
    simp only [processOne]
    split <;> simp

theorem processFiles_lines_mono (env : Env) (files : List String) {x : String} :
    ∀ st : LoopState, x ∈ st.lines → x ∈ (processFiles env files st).lines := by
  induction files with
  | nil => intro st h; simpa [processFiles_nil] using h
  | cons f fs ih =>
    intro st h
    rw [processFiles_cons]
    apply ih
    simp only [processOne]
    split <;> simp [h]

theorem processFiles_outDir_mono (env : Env) (files : List String) {y : String} :
    ∀ st : LoopState, y ∈ st.outDir → y ∈ (processFiles env files st).outDir := by
  induction files with
  | nil => intro st h; simpa [processFiles_nil] using h
  | cons f fs ih =>
    intro st h
    rw [processFiles_cons]
    apply ih
    simp only [processOne]
    split <;>
    · simp only [convert_outDir]
      split
      · exact mem_fsInsert_of_mem _ h
      · exact h

theorem processFiles_outDir_mem (env : Env) (files : List String) {f : String}
    (hmem : f ∈ files) (hs : env.outcome f = LibOutcome.success) :
    ∀ st : LoopState, stepName f ∈ (processFiles env files st).outDir := by
  induction files with
  | nil => cases hmem
  | cons g fs ih =>
    intro st
    rw [processFiles_cons]
    rcases List.mem_cons.mp hmem with rfl | hmem'
    · apply processFiles_outDir_mono
      simp only [processOne]
      split <;>
      · simp only [convert_outDir, hs, createsOutput]
        simp [mem_fsInsert_self]
    · exact ih hmem' _

theorem processFiles_outDir_nodup (env : Env) (files : List String) :
    ∀ st : LoopState, st.outDir.Nodup → (processFiles env files st).outDir.Nodup := by
  induction files with
  | nil => intro st h; simpa [processFiles_nil] using h
  | cons f fs ih =>
    intro st h
    rw [processFiles_cons]
    apply ih
    simp only [processOne]
    split <;>
    · simp only [convert_outDir]
      split
      · exact fsInsert_nodup _ h
      · exact h

theorem processFiles_congr (oc : String → LibOutcome) (em rer rer' : String → String)
    (rok rok' : String → Bool) (files : List String) :
    ∀ st : LoopState, processFiles ⟨oc, em, rer, rok⟩ files st
      = processFiles ⟨oc, em, rer', rok'⟩ files st := by
  induction files with
  | nil => intro st; rfl
  | cons f fs ih =>
    intro st
    rw [processFiles_cons, processFiles_cons, ih]
    simp only [processOne]
    rw [convert_congr oc em rer rer' rok rok']

theorem removeFiles_nil (env : Env) (st : RemoveState) : removeFiles env st [] = st := rfl

theorem removeFiles_cons (env : Env) (st : RemoveState) (f : String) (fs : List String) :
    removeFiles env st (f :: fs) = removeFiles env (removeOne env st f) fs := rfl

theorem removeFiles_attempts (env : Env) (files : List String) :
    ∀ st : RemoveState, (removeFiles env st files).attempts = st.attempts ++ files := by
  induction files with
  | nil => intro st; simp [removeFiles_nil]
  | cons f fs ih =>
    intro st
    rw [removeFiles_cons, ih]
    unfold removeOne
    split <;> simp

theorem removeFiles_trace (env : Env) (files : List String) :
    ∀ st : RemoveState, (removeFiles env st files).trace
      = st.trace ++ files.map Event.deleteAttempt := by
  induction files with
  | nil => intro st; simp [removeFiles_nil]
  | cons f fs ih =>
    intro st
    rw [removeFiles_cons, ih]
    unfold removeOne
    split <;> simp

theorem removeFiles_lines_mono (env : Env) (files : List String) {x : String} :
    ∀ st : RemoveState, x ∈ st.lines → x ∈ (removeFiles env st files).lines := by
  induction files with
  | nil => intro st h; simpa [removeFiles_nil] using h
  | cons f fs ih =>
    intro st h
    rw [removeFiles_cons]
    apply ih
    unfold removeOne
    split <;> simp [h]

theorem removeFiles_warn (env : Env) (files : List String) {f : String}
    (hmem : f ∈ files) (hfail : env.removeOk f = false) :
    ∀ st : RemoveState,
      ("Warning: Could not remove " ++ f ++ ": " ++ env.removeErr f)
        ∈ (removeFiles env st files).lines := by
  induction files with
  | nil => cases hmem
  | cons g fs ih =>
    intro st
    rw [removeFiles_cons]
    rcases List.mem_cons.mp hmem with rfl | hmem'
    · apply removeFiles_lines_mono
      unfold removeOne
      rw [hfail]
      simp
    · exact ih hmem' _

theorem removeFiles_inDir_sub (env : Env) (files : List String) {e : Entry} :
    ∀ st : RemoveState, e ∈ (removeFiles env st files).inDir → e ∈ st.inDir := by
  induction files with
  | nil => intro st h; simpa [removeFiles_nil] using h
  | cons f fs ih =>
    intro st h
    have h' := ih _ h
    unfold removeOne at h'
    revert h'
    split
    · intro h'; exact List.mem_of_mem_filter h'
    · intro h'; exact h'

theorem removeFiles_removes (env : Env) (files : List String) {f : String}
    (hmem : f ∈ files) (hok : env.removeOk f = true) :
    ∀ st : RemoveState, ∀ e ∈ (removeFiles env st files).inDir, e.name ≠ f := by
  induction files with
  | nil => cases hmem
  | cons g fs ih =>
    intro st e he
    rcases List.mem_cons.mp hmem with rfl | hmem'
    · rw [removeFiles_cons] at he
      have he' : e ∈ (removeOne env st f).inDir := removeFiles_inDir_sub env fs _ he
      simp only [removeOne, hok] at he'
      simp only [if_true, List.mem_filter, Bool.not_eq_true', decide_eq_false_iff_not] at he'
      exact he'.2
    · exact ih hmem' _ e he

theorem removeFiles_keeps (env : Env) (files : List String) {f : String} {e : Entry}
    (hnot : ∀ g ∈ files, g ≠ f) (hname : e.name = f) :
    ∀ st : RemoveState, e ∈ st.inDir → e ∈ (removeFiles env st files).inDir := by
  induction files with
  | nil => intro st h; simpa [removeFiles_nil] using h
  | cons g fs ih =>
    intro st h
    rw [removeFiles_cons]
    have hgf : g ≠ f := hnot g (List.mem_cons_self g fs)
    apply ih (fun x hx => hnot x (List.mem_cons_of_mem g hx))
    unfold removeOne
    split
    · simp only [List.mem_filter]
      refine ⟨h, ?_⟩
      rw [hname]
      simpa using fun hc => hgf hc.symm
    · exact h

theorem mainRun_stl_files (env : Env) (sd : String) (inDir : List Entry)
    (outDir : List String) :
    (mainRun env sd inDir outDir).stl_files = get_stl_files inDir := by
  unfold mainRun mainLoop
  split <;> rfl

theorem mainRun_successful (env : Env) (sd : String) (inDir : List Entry)
    (outDir : List String) :
    (mainRun env sd inDir outDir).successful
      = ((get_stl_files inDir).filter
          (fun g => decide (env.outcome g = LibOutcome.success))).length := by
  unfold mainRun
  split
  · next h => simp [List.isEmpty_iff.mp h]
  · show (processFiles env (get_stl_files inDir) _).successful = _
    rw [processFiles_successful]
    simp

theorem mainRun_failed (env : Env) (sd : String) (inDir : List Entry)
    (outDir : List String) :
    (mainRun env sd inDir outDir).failed
      = ((get_stl_files inDir).filter
          (fun g => !(decide (env.outcome g = LibOutcome.success)))).length := by
  unfold mainRun
  split
  · next h => simp [List.isEmpty_iff.mp h]
  · show (processFiles env (get_stl_files inDir) _).failed = _
    rw [processFiles_failed]
    simp

theorem mainRun_deletionAttempts (env : Env) (sd : String) (inDir : List Entry)
    (outDir : List String) :
    (mainRun env sd inDir outDir).deletionAttempts
      = (get_stl_files inDir).filter
          (fun g => decide (env.outcome g = LibOutcome.success)) := by
  unfold mainRun
  split
  · next h => simp [List.isEmpty_iff.mp h]
  · show (removeFiles env _ (processFiles env (get_stl_files inDir) _).files_to_remove).attempts = _
    rw [removeFiles_attempts, processFiles_toRemove]
    simp

theorem mainRun_trace (env : Env) (sd : String) (inDir : List Entry)
    (outDir : List String) :
    (mainRun env sd inDir outDir).trace
      = (get_stl_files inDir).map Event.convAttempt
        ++ ((get_stl_files inDir).filter
            (fun g => decide (env.outcome g = LibOutcome.success))).map Event.deleteAttempt := by
  unfold mainRun
  split
  · next h => simp [List.isEmpty_iff.mp h]
  · show (removeFiles env _ (processFiles env (get_stl_files inDir) _).files_to_remove).trace = _
    rw [removeFiles_trace, processFiles_toRemove, processFiles_trace]
    simp

theorem filter_length_partition (p : String → Bool) (l : List String) :
    (l.filter p).length + (l.filter (fun a => !(p a))).length = l.length := by
  induction l with
  | nil => rfl
  | cons a l ih => by_cases h : p a <;> simp [h] <;> omega

/-! ### Claims -/

/-- C1: for every run, the reported successful counter plus the reported
failed counter equals the length of the discovered input-file list — each
discovered file increments exactly one of the two. -/
theorem C1_success_plus_failed_eq_discovered (env : Env) (sd : String)
    (inDir : List Entry) (outDir : List String) :
    (mainRun env sd inDir outDir).successful + (mainRun env sd inDir outDir).failed
      = (mainRun env sd inDir outDir).stl_files.length := by
  rw [mainRun_successful, mainRun_failed, mainRun_stl_files]
  exact filter_length_partition _ _

/-- C2 counterexample: with a file that converts successfully but whose
`os.remove` raises, the run reports one success and creates the output
file, yet the input file still exists in the input directory afterwards —
so a successful conversion does not always imply the input file is gone. -/
theorem C2_counterexample :
    (mainRun envRemoveFails "" [⟨"cube.stl", EntryKind.file⟩] []).successful = 1 ∧
    Entry.mk "cube.stl" EntryKind.file
      ∈ (mainRun envRemoveFails "" [⟨"cube.stl", EntryKind.file⟩] []).inDirAfter ∧
    "cube.step" ∈ (mainRun envRemoveFails "" [⟨"cube.stl", EntryKind.file⟩] []).outDirAfter := by
  decide

/-- C2 (amended): for every discovered input file whose conversion
succeeds, exactly one output file with the STEP name exists in the output
directory afterwards (given the output directory starts without duplicate
names), and — provided its `os.remove` does not raise — the input file no
longer exists in the input directory. -/
theorem C2_success_output_unique_input_removed (env : Env) (sd : String)
    (inDir : List Entry) (outDir : List String) (f : String)
    (hf : f ∈ (mainRun env sd inDir outDir).stl_files)
    (hs : env.outcome f = LibOutcome.success)
    (hnd : outDir.Nodup) :
    (mainRun env sd inDir outDir).outDirAfter.count (stepName f) = 1 ∧
    (env.removeOk f = true →
      ∀ e ∈ (mainRun env sd inDir outDir).inDirAfter, e.name ≠ f) := by
  rw [mainRun_stl_files] at hf
  unfold mainRun
  split
  · next h => rw [List.isEmpty_iff.mp h] at hf; cases hf
  · constructor
    · show (List.count _ (processFiles env (get_stl_files inDir)
        { successful := 0, failed := 0, files_to_remove := [], outDir := outDir,
          lines := [], trace := [] }).outDir) = 1
      exact List.count_eq_one_of_mem
        (processFiles_outDir_nodup env _ _ hnd)
        (processFiles_outDir_mem env _ hf hs _)
    · intro hok
      show ∀ e ∈ (removeFiles env _ (processFiles env (get_stl_files inDir)
        { successful := 0, failed := 0, files_to_remove := [], outDir := outDir,
          lines := [], trace := [] }).files_to_remove).inDir, e.name ≠ f
      apply removeFiles_removes env _ ?_ hok
      rw [processFiles_toRemove]
      simp [hf, hs]

/-- C2 witness: a concrete run where `cube.stl` converts and its removal
succeeds. -/
theorem C2_witness :
    (mainRun envAllOk "" [⟨"cube.stl", EntryKind.file⟩] []).outDirAfter.count
        (stepName "cube.stl") = 1 ∧
    (envAllOk.removeOk "cube.stl" = true →
      ∀ e ∈ (mainRun envAllOk "" [⟨"cube.stl", EntryKind.file⟩] []).inDirAfter,
        e.name ≠ "cube.stl") :=
  C2_success_output_unique_input_removed envAllOk "" [⟨"cube.stl", EntryKind.file⟩] []
    "cube.stl" (by decide) rfl (by simp)

/-- C3 counterexample: when `FreeCAD.closeDocument` raises after
`exportStep` has already written the output file, the file is counted as
failed and yet an output file for it exists — refuting "no output file for
it is created" for exceptions raised anywhere during the library calls. -/
theorem C3_counterexample :
    (mainRun envCloseFails "" [⟨"cube.stl", EntryKind.file⟩] []).failed = 1 ∧
    "cube.step" ∈ (mainRun envCloseFails "" [⟨"cube.stl", EntryKind.file⟩] []).outDirAfter := by
  decide

/-- C3 (amended): for every discovered input file whose conversion fails,
the input file remains untouched in the input directory; and unless the
exception was raised after the export completed (in `closeDocument`), the
call leaves the output directory unchanged, so no output file for it is
created. -/
theorem C3_failure_preserves_input (env : Env) (sd : String) (inDir : List Entry)
    (outDir : List String) (f : String)
    (_hf : f ∈ (mainRun env sd inDir outDir).stl_files)
    (hfail : env.outcome f ≠ LibOutcome.success) :
    (∀ e ∈ inDir, e.name = f → e ∈ (mainRun env sd inDir outDir).inDirAfter) ∧
    (∀ o : List String,
      env.outcome f = LibOutcome.raiseAtImport ∨ env.outcome f = LibOutcome.raiseBeforeExport →
      (convert_stl_to_step env o f).outDir = o ∧ (convert_stl_to_step env o f).ret = false) := by
  constructor
  · intro e he hname
    unfold mainRun
    split
    · exact he
    · show e ∈ (removeFiles env _ (processFiles env (get_stl_files inDir)
        { successful := 0, failed := 0, files_to_remove := [], outDir := outDir,
          lines := [], trace := [] }).files_to_remove).inDir
      apply removeFiles_keeps env _ ?_ hname _ he
      rw [processFiles_toRemove]
      intro g hg
      simp only [List.nil_append, List.mem_filter, decide_eq_true_eq] at hg
      intro hgf
      exact hfail (hgf ▸ hg.2)
  · intro o h
    rcases h with h | h <;> simp [convert_stl_to_step, h]

/-- C3 witness: a concrete run where the mesh import raises, so the input
file survives and the conversion touches nothing. -/
theorem C3_witness :
    (∀ e ∈ [Entry.mk "broken.stl" EntryKind.file], e.name = "broken.stl" →
      e ∈ (mainRun envMeshFails "" [⟨"broken.stl", EntryKind.file⟩] []).inDirAfter) ∧
    (∀ o : List String,
      envMeshFails.outcome "broken.stl" = LibOutcome.raiseAtImport ∨
        envMeshFails.outcome "broken.stl" = LibOutcome.raiseBeforeExport →
      (convert_stl_to_step envMeshFails o "broken.stl").outDir = o ∧
      (convert_stl_to_step envMeshFails o "broken.stl").ret = false) :=
  C3_failure_preserves_input envMeshFails "" [⟨"broken.stl", EntryKind.file⟩] []
    "broken.stl" (by decide) (by decide)

/-- C4: every library exception is caught inside `convert_stl_to_step`
(the call returns `False` instead of propagating), an error line naming the
file is printed, the file is counted in the failed counter, and the batch
still attempts every discovered file. -/
theorem C4_exception_caught_logged_counted :
    (∀ (env : Env) (o : List String) (f : String),
      env.outcome f ≠ LibOutcome.success →
        (convert_stl_to_step env o f).ret = false ∧
        ("  ERROR converting " ++ f ++ ": " ++ env.errMsg f)
          ∈ (convert_stl_to_step env o f).lines) ∧
    (∀ (env : Env) (sd : String) (inDir : List Entry) (outDir : List String),
      (mainRun env sd inDir outDir).failed
        = ((mainRun env sd inDir outDir).stl_files.filter
            (fun g => !(decide (env.outcome g = LibOutcome.success)))).length) ∧
    (∀ (env : Env) (sd : String) (inDir : List Entry) (outDir : List String) (f : String),
      f ∈ (mainRun env sd inDir outDir).stl_files →
        Event.convAttempt f ∈ (mainRun env sd inDir outDir).trace) := by
  refine ⟨?_, ?_, ?_⟩
  · intro env o f h
    refine ⟨?_, convert_err_mem env o f h⟩
    rw [convert_ret]
    simp [h]
  · intro env sd inDir outDir
    rw [mainRun_failed, mainRun_stl_files]
  · intro env sd inDir outDir f hf
    rw [mainRun_trace]
    rw [mainRun_stl_files] at hf
    simp [hf]

/-- C5: `get_stl_files` returns exactly the directory-entry names whose
name case-insensitively ends with `.stl` and excludes all others; on a
directory holding `cube.stl`, `sphere.STL` and `readme.txt` it returns
`["cube.stl", "sphere.STL"]` in that sorted order. -/
theorem C5_discovery_exactly_stl_names :
    (∀ (entries : List Entry) (f : String),
      f ∈ get_stl_files entries ↔ f ∈ entries.map Entry.name ∧ hasStlExt f = true) ∧
    get_stl_files [⟨"cube.stl", EntryKind.file⟩, ⟨"sphere.STL", EntryKind.file⟩,
        ⟨"readme.txt", EntryKind.file⟩] = ["cube.stl", "sphere.STL"] := by
  constructor
  · intro entries f
    unfold get_stl_files
    rw [List.mem_insertionSort, List.mem_filter]
  · decide

/-- C6 counterexample: a directory entry named `sub.stl` that is itself a
directory is still returned by `get_stl_files` — the code never checks the
entry kind, so the claim that only regular files are returned is false. -/
theorem C6_counterexample :
    get_stl_files [⟨"sub.stl", EntryKind.directory⟩] = ["sub.stl"] ∧
    (Entry.mk "sub.stl" EntryKind.directory).kind ≠ EntryKind.file := by
  decide

/-- C6 (amended): `get_stl_files` returns the entries whose extension
case-insensitively matches the suffix regardless of entry kind (directories
included), in lexicographic order. -/
theorem C6_discovery_kind_blind_sorted :
    (∀ (entries : List Entry) (k : Entry → EntryKind),
      get_stl_files (entries.map (fun e => ⟨e.name, k e⟩)) = get_stl_files entries) ∧
    (∀ entries : List Entry,
      (get_stl_files entries).Pairwise (fun a b => strLe a b = true)) := by
  constructor
  · intro entries k
    unfold get_stl_files
    rw [List.map_map]
    rfl
  · intro entries
    haveI : IsTotal String (fun a b => strLe a b = true) :=
      ⟨fun a b => charLe_total a.data b.data⟩
    haveI : IsTrans String (fun a b => strLe a b = true) :=
      ⟨fun a b c => charLe_trans a.data b.data c.data⟩
    exact List.sorted_insertionSort _ _

/-- C7: the output path for every input file is the `os.path.splitext` base
name with the `.step` suffix appended, placed in the output directory; in
particular `cube.stl` maps to `cube.step`, and the edge case `.stl` (whose
splitext base is `.stl` itself, having no extension) maps to `.stl.step`. -/
theorem C7_output_name_contract :
    (∀ (env : Env) (o : List String) (f : String),
      env.outcome f = LibOutcome.success →
        (convert_stl_to_step env o f).outDir
          = fsInsert ((splitext f).1 ++ ".step") o) ∧
    splitext "cube.stl" = ("cube", ".stl") ∧
    stepName "cube.stl" = "cube.step" ∧
    stepName ".stl" = ".stl.step" ∧
    stepName "part.v2.stl" = "part.v2.step" := by
  refine ⟨?_, by decide, by decide, by decide, by decide⟩
  intro env o f h
  simp [convert_stl_to_step, h, stepName]

/-- C8 counterexample: on a run with no discovered input files the summary
with the two counters is never printed (`main` returns early with a
"No STL files found" notice), so the run does not "report zero successful
and zero failed conversions in its summary"; it does perform no
deletions. -/
theorem C8_counterexample :
    "  Successful: 0" ∉ (mainRun envAllOk "" [] []).lines ∧
    "  Failed: 0" ∉ (mainRun envAllOk "" [] []).lines ∧
    (mainRun envAllOk "" [] []).deletionAttempts = [] := by
  decide

/-- C8 (amended): for every run whose discovered input-file list is empty,
no conversion is attempted and no deletion is performed (both counters are
zero and the trace is empty), the directories are untouched, and the
process prints the "No STL files found" notice instead of the counter
summary. -/
theorem C8_empty_discovery_no_work (env : Env) (sd : String) (inDir : List Entry)
    (outDir : List String) (h : get_stl_files inDir = []) :
    (mainRun env sd inDir outDir).successful = 0 ∧
    (mainRun env sd inDir outDir).failed = 0 ∧
    (mainRun env sd inDir outDir).deletionAttempts = [] ∧
    (mainRun env sd inDir outDir).trace = [] ∧
    (mainRun env sd inDir outDir).inDirAfter = inDir ∧
    (mainRun env sd inDir outDir).outDirAfter = outDir ∧
    ("\nNo STL files found in: " ++ (sd ++ "/stl_files"))
      ∈ (mainRun env sd inDir outDir).lines := by
  unfold mainRun
  simp [h]

/-- C8 witness: the empty input directory. -/
theorem C8_witness :
    (mainRun envAllOk "" [] []).successful = 0 ∧
    (mainRun envAllOk "" [] []).failed = 0 ∧
    (mainRun envAllOk "" [] []).deletionAttempts = [] ∧
    (mainRun envAllOk "" [] []).trace = [] ∧
    (mainRun envAllOk "" [] []).inDirAfter = [] ∧
    (mainRun envAllOk "" [] []).outDirAfter = [] ∧
    ("\nNo STL files found in: " ++ ("" ++ "/stl_files")) ∈ (mainRun envAllOk "" [] []).lines :=
  C8_empty_discovery_no_work envAllOk "" [] [] rfl

/-- C9: the cleanup phase attempts to delete exactly the source files that
converted successfully, in order; a deletion attempt whose `os.remove`
raises prints a warning line; and the reported counters do not depend on
the deletion outcomes at all. -/
theorem C9_cleanup_deletes_successes :
    (∀ (env : Env) (sd : String) (inDir : List Entry) (outDir : List String),
      (mainRun env sd inDir outDir).deletionAttempts
        = (mainRun env sd inDir outDir).stl_files.filter
            (fun g => decide (env.outcome g = LibOutcome.success))) ∧
    (∀ (env : Env) (sd : String) (inDir : List Entry) (outDir : List String) (f : String),
      f ∈ (mainRun env sd inDir outDir).deletionAttempts →
      env.removeOk f = false →
        ("Warning: Could not remove " ++ f ++ ": " ++ env.removeErr f)
          ∈ (mainRun env sd inDir outDir).lines) ∧
    (∀ (oc : String → LibOutcome) (em rer rer' : String → String)
        (rok rok' : String → Bool) (sd : String) (inDir : List Entry) (outDir : List String),
      (mainRun ⟨oc, em, rer, rok⟩ sd inDir outDir).successful
          = (mainRun ⟨oc, em, rer', rok'⟩ sd inDir outDir).successful ∧
      (mainRun ⟨oc, em, rer, rok⟩ sd inDir outDir).failed
          = (mainRun ⟨oc, em, rer', rok'⟩ sd inDir outDir).failed) := by
  refine ⟨?_, ?_, ?_⟩
  · intro env sd inDir outDir
    rw [mainRun_deletionAttempts, mainRun_stl_files]
  · intro env sd inDir outDir f hmem hfail
    rw [mainRun_deletionAttempts] at hmem
    unfold mainRun
    split
    · next h => rw [List.isEmpty_iff.mp h] at hmem; cases hmem
    · have hrm : f ∈ (processFiles env (get_stl_files inDir)
        { successful := 0, failed := 0, files_to_remove := [], outDir := outDir,
          lines := [], trace := [] }).files_to_remove := by
        rw [processFiles_toRemove]
        simpa using hmem
      have hw := removeFiles_warn env _ hrm hfail
        { inDir := inDir, attempts := [], lines := [],
          trace := (processFiles env (get_stl_files inDir)
            { successful := 0, failed := 0, files_to_remove := [], outDir := outDir,
              lines := [], trace := [] }).trace }
      simp only [mainLoop, List.mem_append, List.mem_cons]
      tauto
  · intro oc em rer rer' rok rok' sd inDir outDir
    constructor
    · rw [mainRun_successful, mainRun_successful]
    · rw [mainRun_failed, mainRun_failed]

/-- C10: in every run the trace of filesystem events is all the conversion
attempts, in discovery order, followed by all the deletion attempts, which
cover exactly the successful files in that same order — no deletion is
attempted until every conversion attempt has completed. -/
theorem C10_deletions_after_all_conversions (env : Env) (sd : String)
    (inDir : List Entry) (outDir : List String) :
    (mainRun env sd inDir outDir).trace
      = (mainRun env sd inDir outDir).stl_files.map Event.convAttempt
        ++ ((mainRun env sd inDir outDir).stl_files.filter
            (fun g => decide (env.outcome g = LibOutcome.success))).map Event.deleteAttempt := by
  rw [mainRun_trace, mainRun_stl_files]

end Mesh2Solid
